import Mathlib

/-!
A verification development for the EEG signal-conditioning pipeline of this
repository.  The pipeline scripts (loading, bandpass filtering, truncation,
ICA epoch assembly, re-referencing, feature extraction) are shallowly embedded
as executable Lean functions over lists and rationals, translated from the
Python sources under `src/` (both the `src/src` generation and the
`workflow/scripts` generation, which differ in places that matter).  Theorems
at the end of the file settle the stated correctness properties.
-/

/-! ## Python-semantics helpers -/

/-- Characters stripped by Python's `int(str)` conversion (whitespace). -/
def pyIsSpace (c : Char) : Bool :=
  c = ' ' || c = '\t' || c = '\n' || c = '\r' || c = '\x0b' || c = '\x0c'

/-- Numeric value of a list of decimal digit characters. -/
def digitsVal (ds : List Char) : ℕ :=
  ds.foldl (fun a c => a * 10 + (c.toNat - '0'.toNat)) 0

/-- Models Python's `int(s)` on a string: strip surrounding whitespace, allow
an optional sign, then require a nonempty run of decimal digits.  `none`
models the `ValueError` Python raises on any other input. -/
def pyIntParse (s : String) : Option ℤ :=
  let cs := ((s.toList.dropWhile pyIsSpace).reverse.dropWhile pyIsSpace).reverse
  let sd : ℤ × List Char :=
    match cs with
    | '+' :: t => (1, t)
    | '-' :: t => (-1, t)
    | t => (1, t)
  if sd.2 ≠ [] ∧ sd.2.all (fun c => c.isDigit) then
    some (sd.1 * (digitsVal sd.2 : ℤ))
  else
    none

/-- Splits a character list at commas (helper for `pySplitComma`). -/
def splitCommaAux : List Char → List Char → List (List Char)
  | [], acc => [acc.reverse]
  | c :: rest, acc =>
    if c = ',' then acc.reverse :: splitCommaAux rest []
    else splitCommaAux rest (c :: acc)

/-- Models Python's `s.split(",")`: the comma-separated pieces of `s`, kept
verbatim (empty pieces included). -/
def pySplitComma (s : String) : List String :=
  (splitCommaAux s.toList []).map (fun cs => String.mk cs)

/-- Models Python's `int(q)` on a number: truncation toward zero. -/
def pyTrunc (q : ℚ) : ℤ :=
  q.num.sign * ((q.num.natAbs / q.den : ℕ) : ℤ)

/-- Models the Python slice `l[:t]`: for a nonnegative stop it takes the
first `t` elements; a negative stop counts from the end. -/
def pySliceTo (t : ℤ) (l : List ℚ) : List ℚ :=
  if 0 ≤ t then l.take t.toNat else l.take ((l.length : ℤ) + t).toNat

/-- Models `min` over a nonempty sequence of integers (`min(df["size"])`);
the `[]` case is never reached on the nonempty tables the scripts process. -/
def listMinInt : List ℤ → ℤ
  | [] => 0
  | x :: xs => xs.foldl min x

/-! ## Data model: the Signal Table -/

/-- One row of the Signal Table (`id, event, channel, code, size, signal`),
as produced by `load_data.py` and consumed by the later stages.  Signal
samples are modelled as exact rationals. -/
structure RawRecord where
  id : ℤ
  event : ℤ
  channel : String
  code : ℤ
  size : ℤ
  signal : List ℚ
  deriving DecidableEq, Repr

/-! ## Exceptions and stage exit codes -/

/-- The exception classes distinguished by the stage entry points. -/
inductive PyExc
  | typeError
  | valueError
  | fileNotFoundError
  | other
  deriving DecidableEq, Repr

/-- The `__main__` exception handler shared by the `workflow/scripts` stage
entry points (for example `workflow/scripts/truncate_signal.py` lines
117–126): `TypeError`, `ValueError` and `FileNotFoundError` exit with code 1,
any other exception exits with code 99, and a normal return exits with 0. -/
def workflowExit : Except PyExc Unit → ℕ
  | .ok _ => 0
  | .error .typeError => 1
  | .error .valueError => 1
  | .error .fileNotFoundError => 1
  | .error .other => 99

/-- The exit behaviour of `src/src/load_data.py`: `main` catches
`ValueError`, `FileNotFoundError` and every other `Exception` internally
(lines 129–134), merely logging them, and `__main__` calls `main` with no
handler, so the process terminates with exit code 0 whatever the outcome of
the body. -/
def srcLoadDataExit : Except PyExc Unit → ℕ
  | .ok _ => 0
  | .error .valueError => 0
  | .error .fileNotFoundError => 0
  | .error _ => 0

/-! ## Truncation stage -/

/-- The truncation transform of `workflow/scripts/truncate_signal.py`
(`main`, lines 93–104): `target_length = min(df["size"])`, every `signal`
column entry becomes `signal[:target_length]`, then every `size` entry is set
to `target_length`.  This copy performs no post-truncation validation. -/
def truncate_wf (df : List RawRecord) : List RawRecord :=
  let target := listMinInt (df.map (·.size))
  let df1 := df.map (fun r => { r with signal := pySliceTo target r.signal })
  df1.map (fun r => { r with size := target })

/-- The truncation transform of `src/src/truncate_signal.py` (`main`, lines
57–70): the same computation, but between the signal truncation and the size
assignment it checks `all(df["signal"].apply(len) == target_length)` and
raises `ValueError` otherwise, so on failure nothing is persisted. -/
def truncate_src (df : List RawRecord) : Except String (List RawRecord) :=
  let target := listMinInt (df.map (·.size))
  let df1 := df.map (fun r => { r with signal := pySliceTo target r.signal })
  if df1.all (fun r => (r.signal.length : ℤ) = target) then
    .ok (df1.map (fun r => { r with size := target }))
  else
    .error s!"Not all signals are of length {target}"

/-- The validation sequence of `workflow/scripts/truncate_signal.py` `main`
before the transform: a missing input file raises `FileNotFoundError` and a
missing output directory raises `ValueError` (the `TypeError` checks on the
argument types are enforced here by Lean's types). -/
def truncate_stage_body (infileExists outdirExists : Bool) (df : List RawRecord) :
    Except PyExc (List RawRecord) :=
  if ¬infileExists then .error .fileNotFoundError
  else if ¬outdirExists then .error .valueError
  else .ok (truncate_wf df)

/-- Exit code of one `workflow/scripts/truncate_signal.py` invocation. -/
def truncate_stage_exit (infileExists outdirExists : Bool) (df : List RawRecord) : ℕ :=
  workflowExit ((truncate_stage_body infileExists outdirExists df).map fun _ => ())

/-! ## ICA stage: epoch assembly -/

/-- First occurrence of each value, in order of first appearance: models
`pandas.Series.unique()` as used for `df["event"].unique()` and
`df["channel"].unique()` in `ica.py`. -/
def uniqueKeepFirstAux [DecidableEq α] : List α → List α → List α
  | [], _ => []
  | a :: l, seen =>
    if a ∈ seen then uniqueKeepFirstAux l seen
    else a :: uniqueKeepFirstAux l (a :: seen)

/-- The values of a list in order of first appearance, each once. -/
def uniqueKeepFirst [DecidableEq α] (l : List α) : List α :=
  uniqueKeepFirstAux l []

/-- `events = df["event"].unique()` (`workflow/scripts/ica.py` line 140). -/
def eventsOf (df : List RawRecord) : List ℤ :=
  uniqueKeepFirst (df.map (·.event))

/-- `channels = df["channel"].unique()` (`workflow/scripts/ica.py` line 141). -/
def channelsOf (df : List RawRecord) : List String :=
  uniqueKeepFirst (df.map (·.channel))

/-- `df["size"].iloc[0]` for a nonempty table. -/
def headSize (df : List RawRecord) : ℤ :=
  match df with
  | [] => 0
  | r :: _ => r.size

/-- `sfreq = df["size"].iloc[0] / 2` (`workflow/scripts/ica.py` line 139). -/
def sfreqOf (df : List RawRecord) : ℚ :=
  (headSize df : ℚ) / 2

/-- `target_length = int(2 * sfreq)` (`workflow/scripts/ica.py` line 142). -/
def targetLengthOf (df : List RawRecord) : ℤ :=
  pyTrunc (2 * sfreqOf df)

/-- One entry of an epoch: the signal of the first row matching the event and
the channel, or `np.zeros(target_length)` when the event has no row for that
channel (`workflow/scripts/ica.py` lines 151–161). -/
def epochRow (df : List RawRecord) (tl : ℤ) (e : ℤ) (c : String) : List ℚ :=
  match ((df.filter (fun r => r.event = e)).filter (fun r => r.channel = c)).head? with
  | some r => r.signal
  | none => List.replicate tl.toNat 0

/-- The assembled Epoch Tensor (event × channel × time): one row per channel,
in the fixed `channels` order, for each event in `events` order
(`workflow/scripts/ica.py` lines 148–166; `src/src/ica.py` lines 82–98 are
identical). -/
def assembleEpochs (df : List RawRecord) : List (List (List ℚ)) :=
  (eventsOf df).map (fun e =>
    (channelsOf df).map (fun c => epochRow df (targetLengthOf df) e c))

/-! ## ICA stage: artifact marking -/

/-- `[int(x) for x in contents.split(",")]`, the parse of an artifact-index
file's contents (`src/src/ica.py` lines 145–147); `none` models the
`ValueError` raised on a non-integer token. -/
def parseArtifactList (s : String) : Option (List ℤ) :=
  (pySplitComma s).mapM pyIntParse

/-- Outcome of the artifact-marking phase: the list assigned to
`ica.exclude` before reconstruction, or the exception that prevents it. -/
inductive IcaExcludeResult
  | applied (l : List ℤ)
  | nameError
  | parseError
  deriving DecidableEq, Repr

/-- The artifact-marking logic of `src/src/ica.py` (lines 136–152).  The
interactive branch collects the user's accepted component indices into the
local `identified_artifacts`; the config branch binds
`additional_artifacts`; the final statement `ica.exclude =
additional_artifacts` runs unconditionally, so in the interactive branch and
in the neither-mode branch that name is unbound and Python raises
`NameError` (modelled by `.nameError`), which `main` only logs — no cleaned
tensor is saved. -/
def srcIcaExclude (inspection : Bool) (artifacts : Option String)
    (fileContents : String) (userAccepts : List ℕ) : IcaExcludeResult :=
  let identified : List ℕ := if inspection then userAccepts else []
  let additional : Option (Option (List ℤ)) :=
    if inspection then none
    else match artifacts with
      | some _ => some (parseArtifactList fileContents)
      | none => none
  match additional with
  | some (some l) => .applied l
  | some none => .parseError
  | none => (fun _ => .nameError) identified

/-- Whether `src/src/ica.py` touches the empty placeholder
`config/artifacts.txt` (the `else` branch, lines 149–150): only when neither
interactive inspection nor a config file is requested. -/
def srcIcaPlaceholderTouched (inspection : Bool) (artifacts : Option String) : Bool :=
  !inspection && artifacts.isNone

/-- The artifact-marking logic of `workflow/scripts/ica.py` (lines 211–227,
with the token validation of lines 106–111): in interactive mode the
collected accepted indices are assigned to `ica.exclude`; otherwise a given
artifacts string must be all decimal tokens (else `ValueError`) and is
parsed; with neither mode, `ica.exclude` keeps its default empty value and
no placeholder file is created. -/
def wfIcaExclude (inspection : Bool) (artifacts : Option String)
    (userAccepts : List ℕ) : IcaExcludeResult :=
  if inspection then .applied (userAccepts.map Int.ofNat)
  else
    match artifacts with
    | some s =>
        if (pySplitComma s).all (fun x => x.toList ≠ [] ∧ x.toList.all (fun c => c.isDigit)) then
          match parseArtifactList s with
          | some l => .applied l
          | none => .parseError
        else .parseError
    | none => .applied []

/-- `workflow/scripts/ica.py` has no code path creating the placeholder
artifact-config file. -/
def wfIcaPlaceholderTouched (inspection : Bool) (artifacts : Option String) : Bool :=
  (fun _ _ => false) inspection artifacts

/-! ## Bandpass filter stage -/

/-- `bandpass_filter` from `workflow/scripts/bandpass_filter.py` (lines
69–74): `nyquist = 0.5 * fs`, `low = lowcut / nyquist`, `high = highcut /
nyquist`, then `butter(order, [low, high], btype="band")` followed by
`filtfilt`.  `scipy.signal.butter` raises `ValueError` ("Digital filter
critical frequencies must be 0 < Wn < 1") when a normalized cutoff lies
outside the open interval (0, 1); that documented validation is the only
part of the SciPy call modelled here, and the numeric filtering itself is
abstracted as the kernel parameter `filtfiltK`.  A zero sampling rate makes
the Python float division raise `ZeroDivisionError` (an unanticipated
error). -/
def bandpass_filter (filtfiltK : List ℚ → List ℚ) (data : List ℚ) (fs : ℚ)
    (lowcut highcut : ℚ) : Except PyExc (List ℚ) :=
  let nyquist := (1 / 2 : ℚ) * fs
  if nyquist = 0 then .error .other
  else
    let low := lowcut / nyquist
    let high := highcut / nyquist
    if 0 < low ∧ low < 1 ∧ 0 < high ∧ high < 1 then .ok (filtfiltK data)
    else .error .valueError

/-! ## Re-referencing (denoising) stage -/

/-- Modelled from the spec: the re-referencing performed by the MNE library
calls `epochs.set_eeg_reference("average", projection=True)` and
`epochs.apply_proj()` (`workflow/scripts/denoising.py` lines 87–88,
`src/src/denoising.py` lines 56–57).  The averaging itself lives in MNE, not
in this repository; per its contract (and the spec's description of
common-average referencing) it subtracts, at every epoch and every time
sample, the arithmetic mean across all channels from every channel's
value. -/
def setEegReferenceAverage (nE nC nT : ℕ) (x : Fin nE → Fin nC → Fin nT → ℚ) :
    Fin nE → Fin nC → Fin nT → ℚ :=
  fun e c t => x e c t - (∑ c' : Fin nC, x e c' t) / (nC : ℚ)

/-! ## Feature extraction stage -/

/-- The numeric kernels `extract_features` delegates to external libraries
(SciPy, PyWavelets, antropy).  They are abstracted as parameters: the key
structure of the returned feature mapping, which is what the claims below
concern, does not depend on their values.  `welchK` takes the sampling
frequency and the per-epoch channel data and returns `(freqs, psd)`;
`wavedecK` returns the list of DWT coefficient arrays. -/
structure FeKernels where
  stdK : List ℚ → ℚ
  kurtK : List ℚ → ℚ
  skewK : List ℚ → ℚ
  sampEntK : List ℚ → ℚ
  appEntK : List ℚ → ℚ
  welchK : ℚ → List (List ℚ) → List ℚ × List (List ℚ)
  wavedecK : List (List ℚ) → List (List (List ℚ))

/-- `np.mean` along the time axis for one epoch. -/
def pyMean (l : List ℚ) : ℚ := l.sum / (l.length : ℚ)

/-- `np.max` along the time axis for one epoch. -/
def pyMax : List ℚ → ℚ
  | [] => 0
  | x :: xs => xs.foldl max x

/-- `np.min` along the time axis for one epoch. -/
def pyMin : List ℚ → ℚ
  | [] => 0
  | x :: xs => xs.foldl min x

/-- The MNE Epochs object as `extract_features` reads it: `get_data()` (an
epoch × channel × time array), `info["ch_names"]` and `info["sfreq"]`. -/
structure EpochsObj where
  data : List (List (List ℚ))
  ch_names : List String
  sfreq : ℚ

/-- `channel_data = data[:, i, :]`. -/
def channelData (ep : EpochsObj) (i : ℕ) : List (List ℚ) :=
  ep.data.map (fun e => e.getD i [])

/-- The five canonical frequency bands of `extract_features`
(`workflow/scripts/feature_extraction.py` lines 95–101), in dict order. -/
def bands : List (String × ℚ × ℚ) :=
  [("delta", 1 / 2, 4), ("theta", 4, 8), ("alpha", 8, 13),
   ("beta", 13, 30), ("gamma", 30, 45)]

/-- `np.sum(psd[:, (freqs >= low) & (freqs <= high)])` for one epoch's PSD
row: the Welch bins whose frequency satisfies `low ≤ f` and `f ≤ high`
(inclusive at both ends) are summed
(`workflow/scripts/feature_extraction.py` lines 132–135). -/
def bandPower (freqs : List ℚ) (psdRow : List ℚ) (low high : ℚ) : ℚ :=
  ((((freqs.zip psdRow).filter
      (fun p => decide (low ≤ p.1) && decide (p.1 ≤ high))).map Prod.snd)).sum

/-- The feature pairs one channel contributes, in the insertion order of the
body of the `for i, channel in enumerate(channel_names)` loop of
`extract_features` (`workflow/scripts/feature_extraction.py` lines 104–146;
`src/src/feature_extraction.py` lines 36–75 are identical). -/
def channelFeaturePairs (K : FeKernels) (channel : String) (cd : List (List ℚ))
    (sfreq : ℚ) (feature_types : List String) : List (String × List ℚ) :=
  (if "statistical" ∈ feature_types then
    [(channel ++ "_mean", cd.map pyMean),
     (channel ++ "_std", cd.map K.stdK),
     (channel ++ "_max", cd.map pyMax),
     (channel ++ "_min", cd.map pyMin),
     (channel ++ "_kurtosis", cd.map K.kurtK),
     (channel ++ "_skewness", cd.map K.skewK)]
   else []) ++
  (if "wavelet" ∈ feature_types then
    (K.wavedecK cd).enum.bind (fun jc =>
      [(channel ++ "_wavelet_" ++ toString jc.1 ++ "_mean", jc.2.map pyMean),
       (channel ++ "_wavelet_" ++ toString jc.1 ++ "_std", jc.2.map K.stdK)])
   else []) ++
  (if "psd" ∈ feature_types then
    (bands.map (fun b =>
      (channel ++ "_" ++ b.1 ++ "_power",
       (K.welchK sfreq cd).2.map
         (fun row => bandPower (K.welchK sfreq cd).1 row b.2.1 b.2.2))))
   else []) ++
  (if "entropy" ∈ feature_types then
    [(channel ++ "_sample_entropy", cd.map K.sampEntK),
     (channel ++ "_approx_entropy", cd.map K.appEntK)]
   else [])

/-- Python dict assignment `features[k] = v`: overwrite in place when the
key exists, else append. -/
def dictSet (d : List (String × List ℚ)) (k : String) (v : List ℚ) :
    List (String × List ℚ) :=
  if d.any (fun p => p.1 = k) then
    d.map (fun p => if p.1 = k then (k, v) else p)
  else d ++ [(k, v)]

/-- A sequence of dict assignments. -/
def dictSetAll (d : List (String × List ℚ)) (pairs : List (String × List ℚ)) :
    List (String × List ℚ) :=
  pairs.foldl (fun acc p => dictSet acc p.1 p.2) d

/-- `extract_features(epochs, feature_types)`
(`workflow/scripts/feature_extraction.py` lines 53–148): starting from an
empty dict, iterate over the channels with their indices and perform each
`features[...] = ...` assignment of the selected feature families. -/
def extract_features (K : FeKernels) (ep : EpochsObj)
    (feature_types : List String) : List (String × List ℚ) :=
  ep.ch_names.enum.foldl
    (fun acc ic =>
      dictSetAll acc (channelFeaturePairs K ic.2 (channelData ep ic.1) ep.sfreq feature_types))
    []

/-- The key set the spec says a family selection implies for one channel
(spec §4.6 and the feature-key completeness property): statistical → six
`{channel}_{stat}` keys; wavelet → `{channel}_wavelet_{level}_{mean,std}`
for the six coefficient arrays (1 approximation + 5 details); psd →
`{channel}_{band}_power` for the five bands; entropy →
`{channel}_sample_entropy` and `{channel}_approx_entropy`. -/
def specImpliedKeys (channel : String) (feature_types : List String) : List String :=
  (if "statistical" ∈ feature_types then
    [channel ++ "_mean", channel ++ "_std", channel ++ "_max",
     channel ++ "_min", channel ++ "_kurtosis", channel ++ "_skewness"]
   else []) ++
  (if "wavelet" ∈ feature_types then
    (List.range 6).bind (fun j =>
      [channel ++ "_wavelet_" ++ toString j ++ "_mean",
       channel ++ "_wavelet_" ++ toString j ++ "_std"])
   else []) ++
  (if "psd" ∈ feature_types then
    ["delta", "theta", "alpha", "beta", "gamma"].map
      (fun b => channel ++ "_" ++ b ++ "_power")
   else []) ++
  (if "entropy" ∈ feature_types then
    [channel ++ "_sample_entropy", channel ++ "_approx_entropy"]
   else [])

/-! ## Concrete inputs used by scenarios and counterexamples -/

/-- The spec's concrete truncation scenario: three records with
`signal=[1,2,3,4,5] size=5`, `[6,7,8] size=3`, `[9,10,11,12] size=4`. -/
def demoTable : List RawRecord :=
  [⟨0, 0, "FC6", 0, 5, [1, 2, 3, 4, 5]⟩,
   ⟨1, 1, "F4", 0, 3, [6, 7, 8]⟩,
   ⟨2, 2, "F8", 0, 4, [9, 10, 11, 12]⟩]

/-- The expected truncation output for `demoTable`: all three signals cut to
length 3 and every `size` set to 3. -/
def demoExpected : List RawRecord :=
  [⟨0, 0, "FC6", 0, 3, [1, 2, 3]⟩,
   ⟨1, 1, "F4", 0, 3, [6, 7, 8]⟩,
   ⟨2, 2, "F8", 0, 3, [9, 10, 11]⟩]

/-- An upstream-inconsistent table: the first record's stored signal (one
sample) is shorter than `target_length = 3`, the situation the defensive
post-truncation check is meant to catch. -/
def badTable : List RawRecord :=
  [⟨0, 0, "O1", 0, 5, [1]⟩,
   ⟨1, 1, "O2", 0, 3, [1, 2, 3]⟩]

/-- A table whose event 1 has no row for channel "O2": exercises the
missing-channel zero-padding of the epoch assembly. -/
def padTable : List RawRecord :=
  [⟨0, 0, "O1", 0, 4, [1, 2, 3, 4]⟩,
   ⟨1, 0, "O2", 0, 4, [5, 6, 7, 8]⟩,
   ⟨2, 1, "O1", 0, 4, [9, 10, 11, 12]⟩]

/-- The one-sided Welch frequency grid for `nperseg = 248`: bins `k·fs/248`
for `k = 0, …, 124` (`248/2 + 1 = 125` bins). -/
def welchFreqs (s : ℚ) : List ℚ :=
  (List.range 125).map (fun k => (k : ℚ) * s / 248)

/-- A concrete kernel instance for the executable scenarios.  Its shapes
mirror the library contracts — `scipy.signal.welch` with `nperseg = 248`
returns 125 one-sided frequency bins and one PSD row per epoch, and
`pywt.wavedec(..., "db4", level=5)` returns `5 + 1 = 6` coefficient arrays —
while the numeric values (irrelevant to the key-structure claims) are
zeroed. -/
def zeroKernels : FeKernels :=
  { stdK := fun _ => 0
    kurtK := fun _ => 0
    skewK := fun _ => 0
    sampEntK := fun _ => 0
    appEntK := fun _ => 0
    welchK := fun s d => (welchFreqs s, d.map (fun _ => List.replicate 125 0))
    wavedecK := fun d => List.replicate 6 (d.map (fun _ => [])) }

/-- The spec's concrete feature-extraction scenario: a 5-channel, 1-epoch,
1000-sample input. -/
def scenario5 : EpochsObj :=
  { data := [List.replicate 5 (List.replicate 1000 (0 : ℚ))]
    ch_names := ["ch1", "ch2", "ch3", "ch4", "ch5"]
    sfreq := 500 }

/-! ## Helper lemmas -/

theorem foldl_min_le_init {α : Type*} [LinearOrder α] (xs : List α) (x : α) :
    xs.foldl min x ≤ x := by
  induction xs generalizing x with
  | nil => simp
  | cons a l ih =>
    simpa using le_trans (ih (min x a)) (min_le_left x a)

theorem foldl_min_le_mem {α : Type*} [LinearOrder α] {y : α} (xs : List α) (x : α)
    (hy : y ∈ xs) : xs.foldl min x ≤ y := by
  induction xs generalizing x with
  | nil => cases hy
  | cons a l ih =>
    rcases List.mem_cons.1 hy with h | h
    · subst h
      simpa using le_trans (foldl_min_le_init l _) (min_le_right x y)
    · simpa using ih _ h

theorem foldl_min_mem {α : Type*} [LinearOrder α] (xs : List α) (x : α) :
    xs.foldl min x = x ∨ xs.foldl min x ∈ xs := by
  induction xs generalizing x with
  | nil => left; rfl
  | cons a l ih =>
    simp only [List.foldl_cons]
    rcases ih (min x a) with h | h
    · rcases min_choice x a with hc | hc
      · left; rw [h, hc]
      · right; rw [h, hc]; exact List.mem_cons_self a l
    · right; exact List.mem_cons_of_mem a h

theorem listMinInt_le_of_mem {l : List ℤ} {y : ℤ} (hy : y ∈ l) : listMinInt l ≤ y := by
  match l, hy with
  | x :: xs, hy =>
    rcases List.mem_cons.1 hy with h | h
    · subst h; exact foldl_min_le_init xs y
    · exact foldl_min_le_mem xs x h

theorem listMinInt_mem {l : List ℤ} (h : l ≠ []) : listMinInt l ∈ l := by
  match l with
  | x :: xs =>
    rcases foldl_min_mem xs x with hc | hc
    · rw [listMinInt]; rw [hc]; exact List.mem_cons_self x xs
    · exact List.mem_cons_of_mem x hc

theorem pySliceTo_of_nonneg {t : ℤ} (h : 0 ≤ t) (l : List ℚ) :
    pySliceTo t l = l.take t.toNat := by
  simp [pySliceTo, h]

theorem pyTrunc_intCast (s : ℤ) : pyTrunc ((s : ℚ)) = s := by
  simp only [pyTrunc, Rat.num_intCast, Rat.den_intCast, Nat.div_one]
  exact Int.sign_mul_natAbs s

theorem targetLengthOf_eq_headSize (df : List RawRecord) :
    targetLengthOf df = headSize df := by
  have h2 : (2 : ℚ) * ((headSize df : ℚ) / 2) = (headSize df : ℚ) := by ring
  rw [targetLengthOf, sfreqOf, h2, pyTrunc_intCast]

theorem mem_uniqueKeepFirstAux {α : Type*} [DecidableEq α] (l seen : List α) (a : α) :
    a ∈ uniqueKeepFirstAux l seen ↔ a ∈ l ∧ a ∉ seen := by
  induction l generalizing seen with
  | nil => simp [uniqueKeepFirstAux]
  | cons b l ih =>
    by_cases hb : b ∈ seen
    · rw [uniqueKeepFirstAux, if_pos hb, ih]
      constructor
      · rintro ⟨h1, h2⟩
        exact ⟨List.mem_cons_of_mem _ h1, h2⟩
      · rintro ⟨h1, h2⟩
        rcases List.mem_cons.1 h1 with rfl | h1
        · exact absurd hb h2
        · exact ⟨h1, h2⟩
    · rw [uniqueKeepFirstAux, if_neg hb]
      simp only [List.mem_cons, ih]
      constructor
      · rintro (rfl | ⟨h1, h2⟩)
        · exact ⟨Or.inl rfl, hb⟩
        · exact ⟨Or.inr h1, fun hs => h2 (Or.inr hs)⟩
      · rintro ⟨rfl | h1, h2⟩
        · exact Or.inl rfl
        · by_cases hab : a = b
          · exact Or.inl hab
          · refine Or.inr ⟨h1, fun hs => ?_⟩
            rcases hs with h | h
            exacts [hab h, h2 h]

theorem mem_uniqueKeepFirst {α : Type*} [DecidableEq α] (l : List α) (a : α) :
    a ∈ uniqueKeepFirst l ↔ a ∈ l := by
  simp [uniqueKeepFirst, mem_uniqueKeepFirstAux]

/-! ## Claim theorems -/

/-- C1: the truncation stage computes `target_length` as the minimum of the
`size` field over all records, replaces every record's `signal` by its first
`target_length` samples, and sets every record's `size` to `target_length`;
on the spec's three-record scenario the output signals are exactly
`[1,2,3]`, `[6,7,8]`, `[9,10,11]`, each with `size = 3` (in both script
copies). -/
theorem c1_truncation_min_prefix (df : List RawRecord) (hne : df ≠ [])
    (hpos : ∀ r ∈ df, 0 ≤ r.size) :
    (∀ r ∈ df, listMinInt (df.map (·.size)) ≤ r.size) ∧
    (∃ r ∈ df, r.size = listMinInt (df.map (·.size))) ∧
    truncate_wf df = df.map (fun r =>
      { r with signal := r.signal.take (listMinInt (df.map (·.size))).toNat,
               size := listMinInt (df.map (·.size)) }) ∧
    truncate_wf demoTable = demoExpected ∧
    truncate_src demoTable = .ok demoExpected := by
  have h1 : ∀ r ∈ df, listMinInt (df.map (·.size)) ≤ r.size := fun r hr =>
    listMinInt_le_of_mem (List.mem_map_of_mem _ hr)
  have h2 : ∃ r ∈ df, r.size = listMinInt (df.map (·.size)) := by
    have hm := listMinInt_mem (l := df.map (·.size)) (by simpa using hne)
    rcases List.mem_map.1 hm with ⟨r, hr, hs⟩
    exact ⟨r, hr, hs⟩
  have ht : 0 ≤ listMinInt (df.map (·.size)) := by
    rcases h2 with ⟨r, hr, hs⟩
    exact hs ▸ hpos r hr
  refine ⟨h1, h2, ?_, by decide, rfl⟩
  unfold truncate_wf
  rw [List.map_map]
  refine List.map_congr_left (fun r _ => ?_)
  simp [Function.comp, pySliceTo_of_nonneg ht]

/-- C9 counterexample: on a table whose first record's stored signal is
shorter than `target_length`, the workflow truncation stage succeeds and
persists a table in which the first signal has length 1 while every `size`
field reads 3 — it does not fail with a validation error. -/
theorem c9_workflow_persists_inconsistent :
    truncate_stage_body true true badTable
        = .ok [⟨0, 0, "O1", 0, 3, [1]⟩, ⟨1, 1, "O2", 0, 3, [1, 2, 3]⟩] ∧
    ((truncate_wf badTable).all
        (fun r => (r.signal.length : ℤ) = listMinInt (badTable.map (·.size)))) = false := by
  constructor
  · rfl
  · decide

/-- C9 (amended): the `src/src/truncate_signal.py` copy performs the
defensive check — whenever it returns a table, every persisted record's
signal length equals its `size`, which equals `target_length`; and if any
truncated signal's length differs from `target_length`, it raises
`ValueError` before the size assignment and the persist, so nothing is
written.  (The `workflow/scripts` copy omits this check, see the
counterexample.) -/
theorem c9_src_truncate_validates (df : List RawRecord) :
    (∀ out, truncate_src df = .ok out →
      ∀ r ∈ out, (r.signal.length : ℤ) = r.size ∧
        r.size = listMinInt (df.map (·.size))) ∧
    ((∃ r ∈ df,
        ((pySliceTo (listMinInt (df.map (·.size))) r.signal).length : ℤ)
          ≠ listMinInt (df.map (·.size))) →
      ∃ msg, truncate_src df = .error msg) := by
  constructor
  · rintro out hout r hr
    unfold truncate_src at hout
    dsimp only at hout
    split at hout
    case isTrue hall =>
      cases hout
      rcases List.mem_map.1 hr with ⟨r1, hr1, rfl⟩
      have hlen := List.all_eq_true.1 hall _ hr1
      simp only [decide_eq_true_eq] at hlen
      exact ⟨by simpa using hlen, rfl⟩
    case isFalse h =>
      exact Except.noConfusion hout
  · rintro ⟨r, hr, hbad⟩
    unfold truncate_src
    dsimp only
    split
    case isTrue hall =>
      have := List.all_eq_true.1 hall _ (List.mem_map_of_mem _ hr)
      simp only [decide_eq_true_eq] at this
      exact absurd this (by simpa using hbad)
    case isFalse h =>
      exact ⟨_, rfl⟩

/-- C9 witness: applied to the inconsistent `badTable`, the src-copy stage
fails with a `ValueError` instead of persisting. -/
theorem c9_src_truncate_validates_witness :
    ∃ msg, truncate_src badTable = Except.error msg :=
  (c9_src_truncate_validates badTable).2 (by decide)

/-- C5 counterexample: `src/src/load_data.py`, a pipeline stage invoked from
the command line, terminates with exit code 0 — not 1 — on a recognized I/O
error (missing input file), because `main` catches and merely logs every
exception. -/
theorem c5_src_load_data_exits_zero :
    srcLoadDataExit (Except.error PyExc.fileNotFoundError) = 0 ∧
    srcLoadDataExit (Except.error PyExc.fileNotFoundError) ≠ 1 := by
  decide

/-- C5 (amended): the `workflow/scripts` stage entry points follow the
three-tier scheme — exit 0 on success, exit 1 when a recognized
`TypeError`/`ValueError`/`FileNotFoundError` validation or I/O error is
raised (missing input file, absent output directory, wrong parameter type,
malformed value), and exit 99 on any other exception; shown on the truncation
stage and the shared handler. -/
theorem c5_workflow_exit_codes :
    (∀ df, truncate_stage_exit true true df = 0) ∧
    (∀ b df, truncate_stage_exit false b df = 1) ∧
    (∀ df, truncate_stage_exit true false df = 1) ∧
    workflowExit (Except.error PyExc.typeError) = 1 ∧
    workflowExit (Except.error PyExc.valueError) = 1 ∧
    workflowExit (Except.error PyExc.fileNotFoundError) = 1 ∧
    (∀ e : PyExc, e ≠ PyExc.typeError → e ≠ PyExc.valueError →
      e ≠ PyExc.fileNotFoundError → workflowExit (Except.error e) = 99) ∧
    workflowExit (Except.ok ()) = 0 := by
  refine ⟨fun df => rfl, fun b df => rfl, fun df => rfl, rfl, rfl, rfl, ?_, rfl⟩
  intro e h1 h2 h3
  cases e with
  | typeError => exact absurd rfl h1
  | valueError => exact absurd rfl h2
  | fileNotFoundError => exact absurd rfl h3
  | other => rfl

/-- C5 witness: an unanticipated internal error exits with code 99. -/
theorem c5_workflow_exit_codes_witness :
    workflowExit (Except.error PyExc.other) = 99 :=
  c5_workflow_exit_codes.2.2.2.2.2.2.1 PyExc.other
    (by decide) (by decide) (by decide)

/-- C6: loading an artifact-index file containing `"1,2,3\n"` produces the
exclusion list `[1, 2, 3]` (set `{1, 2, 3}`), and in the config-driven branch
of `src/src/ica.py` exactly that list is assigned to `ica.exclude` before the
cleaned tensor is reconstructed. -/
theorem c6_artifact_file_parse :
    parseArtifactList "1,2,3\n" = some [1, 2, 3] ∧
    srcIcaExclude false (some "config/artifacts.txt") "1,2,3\n" []
      = IcaExcludeResult.applied [1, 2, 3] ∧
    ([1, 2, 3] : List ℤ).toFinset = ({1, 2, 3} : Finset ℤ) := by
  refine ⟨by decide, by decide, by decide⟩

/-- C7 (code bug): in `src/src/ica.py` the interactive branch collects the
accepted component indices into `identified_artifacts`, but the unconditional
assignment `ica.exclude = additional_artifacts` references a name bound only
in the config branch, so interactive mode (also when both modes are
requested, where the interactive branch wins) raises `NameError` instead of
applying the collected set, and the neither-mode branch touches the empty
placeholder file but then raises the same `NameError`, so no cleaned tensor
is produced.  The revised `workflow/scripts/ica.py` applies the collected set
and leaves the exclusion empty in neither-mode, but creates no placeholder
file. -/
theorem c7_ica_mode_behaviour :
    srcIcaExclude true none "" [0, 2] = IcaExcludeResult.nameError ∧
    srcIcaExclude true (some "cfg.txt") "1,2" [0, 2] = IcaExcludeResult.nameError ∧
    srcIcaExclude false none "" [] = IcaExcludeResult.nameError ∧
    srcIcaPlaceholderTouched false none = true ∧
    wfIcaExclude true (some "1,2") [0, 2] = IcaExcludeResult.applied [0, 2] ∧
    wfIcaExclude false none [] = IcaExcludeResult.applied [] ∧
    wfIcaPlaceholderTouched false none = false := by
  refine ⟨rfl, rfl, rfl, rfl, by decide, rfl, rfl⟩

theorem bandPower_singleton (f q low high : ℚ) :
    bandPower [f] [q] low high = if low ≤ f ∧ f ≤ high then q else 0 := by
  by_cases h1 : low ≤ f <;> by_cases h2 : f ≤ high <;>
    simp [bandPower, List.filter, h1, h2]

/-- C10: the PSD band masks select Welch bins with `low ≤ f` and `f ≤ high`,
inclusive at both ends, so a bin lying exactly on a shared band boundary
(4, 8, 13 or 30 Hz) contributes its power to both adjacent bands: summing the
five band powers of a spectrum holding power `q` in a single boundary bin
yields `2·q` (an interior bin, e.g. 2 Hz, is counted once). -/
theorem c10_band_boundaries_double_count (q : ℚ) :
    (bands.map (fun b => bandPower [4] [q] b.2.1 b.2.2)).sum = 2 * q ∧
    (bands.map (fun b => bandPower [8] [q] b.2.1 b.2.2)).sum = 2 * q ∧
    (bands.map (fun b => bandPower [13] [q] b.2.1 b.2.2)).sum = 2 * q ∧
    (bands.map (fun b => bandPower [30] [q] b.2.1 b.2.2)).sum = 2 * q ∧
    (bands.map (fun b => bandPower [2] [q] b.2.1 b.2.2)).sum = q ∧
    bandPower [4] [q] (1 / 2) 4 = q ∧
    bandPower [4] [q] 4 8 = q := by
  refine ⟨?_, ?_, ?_, ?_, ?_, ?_, ?_⟩ <;>
    · simp only [bands, bandPower_singleton, List.map_cons, List.map_nil,
        List.sum_cons, List.sum_nil]
      norm_num
      try ring

/-- C8: when a normalized cutoff `lowcut/(0.5*fs)` or `highcut/(0.5*fs)`
falls outside the open interval (0,1), the filter-design step fails with the
`ValueError` SciPy's `butter` raises, and the stage's handler surfaces it as
a recognized validation failure (exit code 1), not a crash (99) and not a
NaN-carrying output. -/
theorem c8_bandpass_cutoff_validation (filtfiltK : List ℚ → List ℚ)
    (data : List ℚ) (fs lowcut highcut : ℚ) (hfs : fs ≠ 0)
    (hout : lowcut / ((1 / 2) * fs) ≤ 0 ∨ 1 ≤ lowcut / ((1 / 2) * fs) ∨
            highcut / ((1 / 2) * fs) ≤ 0 ∨ 1 ≤ highcut / ((1 / 2) * fs)) :
    bandpass_filter filtfiltK data fs lowcut highcut = .error .valueError ∧
    workflowExit (Except.error PyExc.valueError) = 1 := by
  have hn : (1 / 2 : ℚ) * fs ≠ 0 := mul_ne_zero (by norm_num) hfs
  refine ⟨?_, rfl⟩
  unfold bandpass_filter
  dsimp only
  rw [if_neg hn, if_neg ?_]
  rintro ⟨hl0, hl1, hh0, hh1⟩
  rcases hout with h | h | h | h
  · exact absurd hl0 (not_lt.2 h)
  · exact absurd hl1 (not_lt.2 h)
  · exact absurd hh0 (not_lt.2 h)
  · exact absurd hh1 (not_lt.2 h)

/-- C8 witness: sampling rate 100 with the script's default cutoffs 1–60 Hz
puts `high = 60/50 = 1.2` outside (0,1): the filter design fails with
`ValueError` and the stage exits with code 1. -/
theorem c8_bandpass_cutoff_validation_witness :
    bandpass_filter id [] 100 1 60 = .error .valueError ∧
    workflowExit (Except.error PyExc.valueError) = 1 :=
  c8_bandpass_cutoff_validation id [] 100 1 60 (by norm_num)
    (Or.inr (Or.inr (Or.inr (by norm_num))))

/-- C2: after re-referencing, for every epoch and every time sample, the
arithmetic mean across all channels of the output Epoch Tensor is zero (the
operation subtracts the instantaneous cross-channel average from every
channel's value at that sample). -/
theorem c2_rereference_zero_mean (nE nC nT : ℕ)
    (x : Fin nE → Fin nC → Fin nT → ℚ) (hC : 0 < nC) (e : Fin nE) (t : Fin nT) :
    (∑ c : Fin nC, setEegReferenceAverage nE nC nT x e c t) / (nC : ℚ) = 0 := by
  have hne : (nC : ℚ) ≠ 0 := Nat.cast_ne_zero.2 hC.ne'
  have hsum : ∑ c : Fin nC, setEegReferenceAverage nE nC nT x e c t = 0 := by
    simp only [setEegReferenceAverage, Finset.sum_sub_distrib, Finset.sum_const,
      Finset.card_univ, Fintype.card_fin, nsmul_eq_mul]
    field_simp
  rw [hsum, zero_div]

/-- C2 witness: a concrete 1×1×1 tensor with value 5 has zero cross-channel
mean after re-referencing. -/
theorem c2_rereference_zero_mean_witness :
    (∑ c : Fin 1, setEegReferenceAverage 1 1 1 (fun _ _ _ => 5) 0 c 0) / ((1 : ℕ) : ℚ) = 0 :=
  c2_rereference_zero_mean 1 1 1 (fun _ _ _ => 5) (by decide) 0 0

/-- C4: when the Epoch Tensor is assembled, an event with no row for a known
channel gets a zero-filled vector of length `target_length` at that channel's
position; the event is not dropped (the tensor keeps one row per event, and
the event's row is present at its index), every event's row lists the
channels in the same fixed `channels` order (uniform row length), and
`target_length` equals the first record's `size` (via `int(2 * (size/2))`). -/
theorem c4_missing_channel_zero_pad (df : List RawRecord)
    (c : String) (hc : c ∈ channelsOf df) (e : ℤ) (he : e ∈ eventsOf df)
    (hmiss : ∀ r ∈ df, ¬(r.event = e ∧ r.channel = c)) :
    targetLengthOf df = headSize df ∧
    (assembleEpochs df).length = (eventsOf df).length ∧
    (∀ row ∈ assembleEpochs df, row.length = (channelsOf df).length) ∧
    epochRow df (targetLengthOf df) e c = List.replicate (targetLengthOf df).toNat 0 ∧
    (∃ i, i < (eventsOf df).length ∧
      (assembleEpochs df).getD i []
        = (channelsOf df).map (fun ch => epochRow df (targetLengthOf df) e ch) ∧
      ∃ j, j < (channelsOf df).length ∧
        ((assembleEpochs df).getD i []).getD j []
          = List.replicate (targetLengthOf df).toNat 0) := by
  have hlen1 : (assembleEpochs df).length = (eventsOf df).length := by
    simp [assembleEpochs]
  have hzero : epochRow df (targetLengthOf df) e c
      = List.replicate (targetLengthOf df).toNat 0 := by
    have hfil : (df.filter (fun r => r.event = e)).filter (fun r => r.channel = c) = [] := by
      rw [List.filter_filter]
      refine List.filter_eq_nil_iff.2 (fun r hr => ?_)
      simp only [Bool.and_eq_true, decide_eq_true_eq]
      exact fun hh => hmiss r hr ⟨hh.2, hh.1⟩
    simp [epochRow, hfil]
  have hie : (eventsOf df).indexOf e < (eventsOf df).length :=
    List.indexOf_lt_length.2 he
  have hjc : (channelsOf df).indexOf c < (channelsOf df).length :=
    List.indexOf_lt_length.2 hc
  have hrow : (assembleEpochs df).getD ((eventsOf df).indexOf e) []
      = (channelsOf df).map (fun ch => epochRow df (targetLengthOf df) e ch) := by
    rw [List.getD_eq_getElem _ _ (hlen1 ▸ hie)]
    unfold assembleEpochs
    rw [List.getElem_map, List.getElem_indexOf]
  refine ⟨targetLengthOf_eq_headSize df, hlen1, ?_, hzero,
    (eventsOf df).indexOf e, hie, hrow, (channelsOf df).indexOf c, hjc, ?_⟩
  · intro row hrow'
    rcases List.mem_map.1 hrow' with ⟨ev, _, rfl⟩
    simp
  · rw [hrow]
    have hjc' : (channelsOf df).indexOf c
        < ((channelsOf df).map (fun ch => epochRow df (targetLengthOf df) e ch)).length := by
      simpa using hjc
    rw [List.getD_eq_getElem _ _ hjc', List.getElem_map, List.getElem_indexOf]
    exact hzero

/-- C4 witness: on `padTable`, whose event 1 lacks channel "O2", the
assembled tensor holds the zero vector of length `target_length = 4` at that
position. -/
theorem c4_missing_channel_zero_pad_witness :
    targetLengthOf padTable = headSize padTable ∧
    (assembleEpochs padTable).length = (eventsOf padTable).length ∧
    (∀ row ∈ assembleEpochs padTable, row.length = (channelsOf padTable).length) ∧
    epochRow padTable (targetLengthOf padTable) 1 "O2"
      = List.replicate (targetLengthOf padTable).toNat 0 ∧
    (∃ i, i < (eventsOf padTable).length ∧
      (assembleEpochs padTable).getD i []
        = (channelsOf padTable).map
            (fun ch => epochRow padTable (targetLengthOf padTable) 1 ch) ∧
      ∃ j, j < (channelsOf padTable).length ∧
        ((assembleEpochs padTable).getD i []).getD j []
          = List.replicate (targetLengthOf padTable).toNat 0) :=
  c4_missing_channel_zero_pad padTable "O2" (by decide) 1 (by decide) (by decide)

theorem mem_keys_dictSet (d : List (String × List ℚ)) (k : String) (v : List ℚ)
    (k' : String) :
    k' ∈ (dictSet d k v).map Prod.fst ↔ k' = k ∨ k' ∈ d.map Prod.fst := by
  unfold dictSet
  split
  case isTrue h =>
    have hkeys : (d.map (fun p => if p.1 = k then (k, v) else p)).map Prod.fst
        = d.map Prod.fst := by
      rw [List.map_map]
      refine List.map_congr_left (fun p _ => ?_)
      by_cases hp : p.1 = k
      · simp [hp]
      · simp [hp]
    rw [hkeys]
    have hk : k ∈ d.map Prod.fst := by
      rcases List.any_eq_true.1 h with ⟨p, hp, hpk⟩
      simp only [decide_eq_true_eq] at hpk
      exact hpk ▸ List.mem_map_of_mem _ hp
    constructor
    · exact Or.inr
    · rintro (rfl | h')
      exacts [hk, h']
  case isFalse h =>
    simp only [List.map_append, List.mem_append, List.map_cons, List.map_nil,
      List.mem_singleton]
    exact or_comm

theorem mem_keys_dictSetAll (d ps : List (String × List ℚ)) (k' : String) :
    k' ∈ (dictSetAll d ps).map Prod.fst ↔
      k' ∈ d.map Prod.fst ∨ k' ∈ ps.map Prod.fst := by
  induction ps generalizing d with
  | nil => simp [dictSetAll]
  | cons p ps ih =>
    rw [show dictSetAll d (p :: ps) = dictSetAll (dictSet d p.1 p.2) ps from rfl,
      ih, mem_keys_dictSet]
    simp only [List.map_cons, List.mem_cons]
    tauto

theorem enumFrom_bind_keys {α : Type*} (g g' : α → List ℚ) (f f' : ℕ → String) :
    ∀ (l : List α) (n : ℕ),
      ((l.enumFrom n).bind
          (fun jc => [(f jc.1, g jc.2), (f' jc.1, g' jc.2)])).map Prod.fst
        = (List.range' n l.length).bind (fun j => [f j, f' j]) := by
  intro l
  induction l with
  | nil => intro n; simp
  | cons a l ih =>
    intro n
    simp only [List.enumFrom, List.cons_bind, List.map_append, List.map_cons,
      List.map_nil, List.length_cons, List.range'_succ, ih]

theorem wavelet_segment_keys (K : FeKernels) (cd : List (List ℚ)) (ch : String)
    (hW : (K.wavedecK cd).length = 6) :
    ((K.wavedecK cd).enum.bind (fun jc =>
      [(ch ++ "_wavelet_" ++ toString jc.1 ++ "_mean", jc.2.map pyMean),
       (ch ++ "_wavelet_" ++ toString jc.1 ++ "_std", jc.2.map K.stdK)])).map Prod.fst
    = (List.range 6).bind (fun j =>
        [ch ++ "_wavelet_" ++ toString j ++ "_mean",
         ch ++ "_wavelet_" ++ toString j ++ "_std"]) := by
  rw [show (K.wavedecK cd).enum = (K.wavedecK cd).enumFrom 0 from rfl]
  rw [enumFrom_bind_keys (fun c2 => c2.map pyMean) (fun c2 => c2.map K.stdK)
    (fun j => ch ++ "_wavelet_" ++ toString j ++ "_mean")
    (fun j => ch ++ "_wavelet_" ++ toString j ++ "_std") (K.wavedecK cd) 0]
  rw [hW, ← List.range_eq_range']

theorem channelFeaturePairs_keys (K : FeKernels) (ch : String)
    (cd : List (List ℚ)) (s : ℚ) (F : List String)
    (hW : (K.wavedecK cd).length = 6) :
    (channelFeaturePairs K ch cd s F).map Prod.fst = specImpliedKeys ch F := by
  unfold channelFeaturePairs specImpliedKeys
  simp only [List.map_append]
  rw [apply_ite (List.map Prod.fst), apply_ite (List.map Prod.fst),
    apply_ite (List.map Prod.fst), apply_ite (List.map Prod.fst)]
  rw [wavelet_segment_keys K cd ch hW]
  simp [bands]

theorem extract_features_keys_mem (K : FeKernels)
    (hW : ∀ cd, (K.wavedecK cd).length = 6) (ep : EpochsObj) (F : List String)
    (k : String) :
    k ∈ (extract_features K ep F).map Prod.fst ↔
      ∃ ch ∈ ep.ch_names, k ∈ specImpliedKeys ch F := by
  have aux : ∀ (l : List (ℕ × String)) (acc : List (String × List ℚ)),
      k ∈ ((l.foldl (fun acc ic =>
          dictSetAll acc
            (channelFeaturePairs K ic.2 (channelData ep ic.1) ep.sfreq F)) acc).map
              Prod.fst)
        ↔ k ∈ acc.map Prod.fst ∨ ∃ p ∈ l, k ∈ specImpliedKeys p.2 F := by
    intro l
    induction l with
    | nil => intro acc; simp
    | cons p l ih =>
      intro acc
      rw [List.foldl_cons, ih, mem_keys_dictSetAll,
        channelFeaturePairs_keys K p.2 _ _ F (hW _)]
      simp only [List.mem_cons]
      constructor
      · rintro ((h | h) | ⟨q, hq, hk⟩)
        exacts [Or.inl h, Or.inr ⟨p, Or.inl rfl, h⟩, Or.inr ⟨q, Or.inr hq, hk⟩]
      · rintro (h | ⟨q, hq | hq, hk⟩)
        · exact Or.inl (Or.inl h)
        · exact Or.inl (Or.inr (hq ▸ hk))
        · exact Or.inr ⟨q, hq, hk⟩
  unfold extract_features
  rw [aux]
  simp only [List.map_nil, List.not_mem_nil, false_or]
  constructor
  · rintro ⟨p, hp, hk⟩
    have hsnd : p.2 ∈ ep.ch_names := by
      have := List.mem_map_of_mem Prod.snd hp
      rwa [List.enum_map_snd] at this
    exact ⟨p.2, hsnd, hk⟩
  · rintro ⟨ch, hch, hk⟩
    rw [← List.enum_map_snd ep.ch_names] at hch
    rcases List.mem_map.1 hch with ⟨p, hp, hps⟩
    exact ⟨p, hp, hps.symm ▸ hk⟩

/-- C3: for every Epoch Tensor and family selection `F`, the key set of the
mapping `extract_features` returns equals exactly the union over all channels
of the keys implied by `F` (given that `pywt.wavedec` with `level=5` returns
six coefficient arrays); in particular, on the 5-channel, 1-epoch,
1000-sample input with `F = {"psd"}`, the result has exactly 25 keys
(5 channels × 5 bands), each mapped to a length-1 array. -/
theorem c3_feature_key_completeness (K : FeKernels)
    (hW : ∀ cd, (K.wavedecK cd).length = 6) :
    (∀ (ep : EpochsObj) (F : List String) (k : String),
        k ∈ (extract_features K ep F).map Prod.fst ↔
          ∃ ch ∈ ep.ch_names, k ∈ specImpliedKeys ch F) ∧
    ((extract_features zeroKernels scenario5 ["psd"]).map Prod.fst).length = 25 ∧
    (∀ p ∈ extract_features zeroKernels scenario5 ["psd"], p.2.length = 1) := by
  refine ⟨fun ep F k => extract_features_keys_mem K hW ep F k, ?_, ?_⟩
  · decide
  · decide

/-- C3 witness: the theorem applied with the concrete kernels: the general
key-set law instantiated at the "psd"-only scenario for one key, plus the
exact 25-key count. -/
theorem c3_feature_key_completeness_witness :
    ("ch1_delta_power" ∈ (extract_features zeroKernels scenario5 ["psd"]).map Prod.fst ↔
      ∃ ch ∈ scenario5.ch_names, "ch1_delta_power" ∈ specImpliedKeys ch ["psd"]) ∧
    ((extract_features zeroKernels scenario5 ["psd"]).map Prod.fst).length = 25 :=
  ⟨(c3_feature_key_completeness zeroKernels
      (fun _ => List.length_replicate 6 _)).1 scenario5 ["psd"] "ch1_delta_power",
   (c3_feature_key_completeness zeroKernels
      (fun _ => List.length_replicate 6 _)).2.1⟩

/-- C1 witness: the theorem applied to the spec's concrete three-record
table. -/
theorem c1_truncation_min_prefix_witness :
    (∀ r ∈ demoTable, listMinInt (demoTable.map (·.size)) ≤ r.size) ∧
    (∃ r ∈ demoTable, r.size = listMinInt (demoTable.map (·.size))) ∧
    truncate_wf demoTable = demoTable.map (fun r =>
      { r with signal := r.signal.take (listMinInt (demoTable.map (·.size))).toNat,
               size := listMinInt (demoTable.map (·.size)) }) ∧
    truncate_wf demoTable = demoExpected ∧
    truncate_src demoTable = .ok demoExpected :=
  c1_truncation_min_prefix demoTable (by decide) (by decide)
